import Mathlib

/-!
Shallow embedding of the legal-research aggregation API (src/index.js and the
web-scraper / schema modules) and proofs about its search pipeline: relevance
ranking, deduplication, pagination, scraping gating, robots compliance,
citation-network lookup, persistence sink and the result cache.

Conventions used throughout:
* JavaScript values that may be `null`/`undefined` are modelled as `Option`.
* A thrown `TypeError` (e.g. calling `.toLowerCase()` on `null`) is modelled
  with `Except Unit`.
* `new Date(s).getTime()` is modelled by an explicit parameter
  `parse : String → Option Int`; `none` stands for `NaN` (an unparseable
  date), `some ms` for the millisecond timestamp.
* Network effects (HTTP fetches, store queries) are modelled by explicit
  result parameters plus trace fields recording which calls were performed.
-/

namespace LegalApi

/-- Canonical record shape produced by every source adapter (src/index.js
format functions and the scraper module).  `title`/`content`/`court` are
`Option` because upstream rows may lack them (the `legal_cases` schema
declares `content` and `court` nullable).  `inDatabase` models JS truthiness
of the `inDatabase` property: records without the property read as
`undefined`, i.e. `false`. -/
structure Record where
  id : String
  title : Option String
  content : Option String
  court : Option String
  authors : Option String
  date : Option String
  url : Option String
  source : String
  inDatabase : Bool
deriving DecidableEq

/-- Substring containment on character lists: models
JavaScript String.prototype.includes (true iff the pattern occurs
contiguously; the empty pattern always occurs). -/
def containsSub (l pat : List Char) : Bool :=
  pat.isPrefixOf l ||
    match l with
    | [] => false
    | _ :: tl => containsSub tl pat

/-- Lower-cased character list of a string; models String.prototype.toLowerCase
(ASCII letters, which is what `Char.toLower` performs and all that the
embedded string literals use). -/
def lowerChars (s : String) : List Char :=
  s.data.map Char.toLower

/-- Models the expression `hay.toLowerCase().includes(needle.toLowerCase())`
from sortResultsByRelevance (src/index.js lines 410-415). -/
def jsIncludesCI (hay needle : String) : Bool :=
  containsSub (lowerChars hay) (lowerChars needle)

/-- Title component of the relevance score: 10 if the query occurs
case-insensitively in the title, else 0 (src/index.js lines 410-411). -/
def titlePoints (q t : String) : ℚ :=
  if jsIncludesCI t q then 10 else 0

/-- Content component of the relevance score: 5 if the query occurs
case-insensitively in the content, else 0 (src/index.js lines 414-415). -/
def contentPoints (q c : String) : ℚ :=
  if jsIncludesCI c q then 5 else 0

/-- Reading a string property that is about to receive a method call:
`null`/`undefined` raises a TypeError, modelled as `Except.error ()`. -/
def jsGetStr : Option String → Except Unit String
  | some s => .ok s
  | none => .error ()

/-- Millisecond recency value of a record (src/index.js line 418:
`a.date ? new Date(a.date).getTime() : 0`).  A falsy `date`
(absent or the empty string) short-circuits to `0`; otherwise the
parse result is used, `none` standing for `NaN`. -/
def recencyMs (parse : String → Option Int) (r : Record) : Option Int :=
  match r.date with
  | none => some 0
  | some d => if d = "" then some 0 else parse d

/-- Total relevance score of a record as computed inside the comparator of
sortResultsByRelevance (src/index.js lines 410-423):
`titleScore + contentScore + dateScore / 10000000000`.
Accessing `title`/`content` of a record lacking them throws (TypeError on
`.toLowerCase()`); an unparseable date makes the whole score `NaN`,
modelled as `Except.ok none`. -/
def totalScoreE (parse : String → Option Int) (q : String) (r : Record) :
    Except Unit (Option ℚ) := do
  let t ← jsGetStr r.title
  let c ← jsGetStr r.content
  pure ((recencyMs parse r).map fun ms =>
    titlePoints q t + contentPoints q c + (ms : ℚ) / 10000000000)

/-- Pure shadow of `totalScoreE` for records whose `title`/`content` are
present (missing fields are defaulted; on well-formed records the two
functions agree, see `totalScoreE_eq_shadow`). -/
def totalScoreP (parse : String → Option Int) (q : String) (r : Record) :
    Option ℚ :=
  (recencyMs parse r).map fun ms =>
    titlePoints q (r.title.getD "") + contentPoints q (r.content.getD "") +
      (ms : ℚ) / 10000000000

/-- Value of the JS comparator `totalScoreB - totalScoreA` as consumed by
Array.prototype.sort: per ECMA-262 SortCompare, a NaN comparator result is
treated as `+0`, so any comparison involving a NaN score yields 0. -/
def jsCompareVal : Option ℚ → Option ℚ → ℚ
  | some sa, some sb => sb - sa
  | _, _ => 0

/-- Effectful comparator of sortResultsByRelevance: the sort places `a`
no later than `b` exactly when the comparator value is ≤ 0. -/
def cmpE (parse : String → Option Int) (q : String) (a b : Record) :
    Except Unit Bool := do
  let sa ← totalScoreE parse q a
  let sb ← totalScoreE parse q b
  pure (decide (jsCompareVal sa sb ≤ 0))

/-- Pure comparator decision on records whose fields are present. -/
def leJS (parse : String → Option Int) (q : String) (a b : Record) : Bool :=
  decide (jsCompareVal (totalScoreP parse q a) (totalScoreP parse q b) ≤ 0)

/-- Defaulted numeric score (`NaN` treated as 0); on NaN-free inputs it is
the comparator key.  Ordering by `scoreD` descending is a total transitive
relation, which the NaN-poisoned comparator is not. -/
def scoreD (parse : String → Option Int) (q : String) (r : Record) : ℚ :=
  (totalScoreP parse q r).getD 0

/-- Total descending-score relation used to restate the sort on NaN-free
inputs. -/
def leD (parse : String → Option Int) (q : String) (a b : Record) : Bool :=
  decide (scoreD parse q b ≤ scoreD parse q a)

/-- Merge step of a stable merge sort whose comparator may throw, mirroring
`List.merge` with the comparator lifted into `Except`.  This models
Array.prototype.sort with the user comparator of src/index.js, where a
TypeError inside the comparator aborts the whole sort. -/
def mergeE (cmp : α → α → Except Unit Bool) : List α → List α → Except Unit (List α)
  | [], ys => .ok ys
  | xs, [] => .ok xs
  | x :: xs, y :: ys => do
    if (← cmp x y) then
      let rest ← mergeE cmp xs (y :: ys)
      .ok (x :: rest)
    else
      let rest ← mergeE cmp (x :: xs) ys
      .ok (y :: rest)
termination_by xs ys => xs.length + ys.length

/-- Stable merge sort with a throwing comparator, mirroring `List.mergeSort`
(the ECMA-262 sort is required to be stable; a comparator exception
propagates out of the sort call). -/
def mergeSortE (cmp : α → α → Except Unit Bool) : List α → Except Unit (List α)
  | [] => .ok []
  | [a] => .ok [a]
  | a :: b :: xs =>
    let lr := List.splitInTwo ⟨a :: b :: xs, rfl⟩
    have := by simpa using lr.2.2
    have := by simpa using lr.1.2
    (mergeSortE cmp lr.1.1).bind fun ls =>
      (mergeSortE cmp lr.2.1).bind fun rs =>
        mergeE cmp ls rs
termination_by l => l.length

/-- Ranking step of the aggregation pipeline (src/index.js lines 405-427):
a stable sort of the records under the relevance comparator.  The result is
an `Except` because the comparator throws a TypeError on records lacking
`title` or `content`. -/
def sortResultsByRelevance (parse : String → Option Int) (results : List Record)
    (query : String) : Except Unit (List Record) :=
  mergeSortE (cmpE parse query) results

deriving instance DecidableEq for Except

/-- JavaScript template-literal rendering of a possibly-absent string field
(an absent field interpolates as the text of its undefined value, which is
how the dedup key of src/index.js line 398 would render it). -/
def jsTemplate (o : Option String) : String :=
  o.getD "undefined"

/-- The expression `result.court || result.source` (src/index.js line 398):
JS `||` falls through on any falsy court, i.e. an absent court or the empty
string. -/
def jsCourtOrSource (r : Record) : String :=
  match r.court with
  | some c => if c = "" then r.source else c
  | none => r.source

/-- Deduplication key of src/index.js line 398: the template literal
hyphen-joining title and court-or-source into a single string. -/
def dedupKey (r : Record) : String :=
  jsTemplate r.title ++ "-" ++ jsCourtOrSource r

/-- Loop of deduplicateResults (src/index.js lines 394-403): `filter` over
the list with a mutable `seen` set of keys, modelled by threading the set of
keys seen so far. -/
def dedupGo (seen : List String) : List Record → List Record
  | [] => []
  | r :: rs =>
    if dedupKey r ∈ seen then dedupGo seen rs
    else r :: dedupGo (dedupKey r :: seen) rs

/-- Cross-source deduplication (src/index.js lines 394-403): keeps a record
iff its dedup key has not been seen earlier in the list. -/
def deduplicateResults (results : List Record) : List Record :=
  dedupGo [] results

/-- Pagination metadata of the result page (src/index.js lines 435-440). -/
structure Pagination where
  total : Nat
  page : Nat
  limit : Nat
  pages : Nat
deriving DecidableEq

/-- A ranked, paginated result page (src/index.js lines 433-441). -/
structure RankedResultPage where
  results : List Record
  pagination : Pagination
deriving DecidableEq

/-- Array.prototype.slice(start, stop) for in-range indices. -/
def jsSlice (l : List Record) (start stop : Nat) : List Record :=
  (l.drop start).take (stop - start)

/-- paginateResults (src/index.js lines 429-442): slice
`[(page-1)*limit, page*limit)` and report `total`, `page`, `limit` and
`pages = Math.ceil(total / limit)` (numeric division then ceiling,
modelled in ℚ). -/
def paginateResults (results : List Record) (page limit : Nat) : RankedResultPage :=
  { results := jsSlice results ((page - 1) * limit) (page * limit)
    pagination :=
      { total := results.length
        page := page
        limit := limit
        pages := Nat.ceil ((results.length : ℚ) / (limit : ℚ)) } }

/-- Predicate of the store query `title.ilike.%q%, content.ilike.%q%`
(src/index.js line 167): case-insensitive substring match on title or
content; a NULL column never matches an ilike pattern. -/
def rowMatches (q : String) (r : Record) : Bool :=
  (match r.title with | some t => jsIncludesCI t q | none => false) ||
  (match r.content with | some c => jsIncludesCI c q | none => false)

/-- searchInternalDatabase (src/index.js lines 162-176): rows matching the
substring query, windowed by `.range((page-1)*limit, page*limit - 1)`
(inclusive range, i.e. the slice `[(page-1)*limit, page*limit)`).  Rows are
returned exactly as stored: no already-in-store flag is attached. -/
def searchInternalDatabase (db : List Record) (q : String) (page limit : Nat) :
    List Record :=
  jsSlice (db.filter (rowMatches q)) ((page - 1) * limit) (page * limit)

/-- Row shape upserted into `legal_cases` by the persistence sink
(src/index.js lines 213-221). -/
structure StoredRow where
  id : String
  title : Option String
  content : Option String
  court : Option String
  date : Option String
  url : Option String
  source : String
deriving DecidableEq

/-- storeResultsInDatabase (src/index.js lines 203-226): upsert the
projection of every result whose `inDatabase` property is falsy.  The
returned list is the list of rows passed to the upsert. -/
def storeResultsInDatabase (results : List Record) : List StoredRow :=
  (results.filter fun r => !r.inDatabase).map fun r =>
    { id := r.id, title := r.title, content := r.content, court := r.court
      date := r.date, url := r.url, source := r.source }

/-- A row of the `citations` table (schema migration file). -/
structure CitationEdge where
  source_id : String
  source_title : String
  target_id : String
  target_title : String
deriving DecidableEq

/-- Result of the citation-network lookup plus a trace of which of the two
store queries were executed. -/
structure CitationNetwork where
  citedBy : List (String × String)
  cites : List (String × String)
  queriesRun : List String
deriving DecidableEq

set_option linter.unusedVariables false in
/-- getCitationNetwork (src/index.js lines 444-468): always runs both store
queries — edges with `target_id = id` (citedBy) and edges with
`source_id = id` (cites) — regardless of the `direction` and `depth`
arguments, which the body never reads. -/
def getCitationNetwork (edges : List CitationEdge) (id : String)
    (direction : String) (depth : Nat) : CitationNetwork :=
  { citedBy := (edges.filter fun e => decide (e.target_id = id)).map
      fun e => (e.source_id, e.source_title)
    cites := (edges.filter fun e => decide (e.source_id = id)).map
      fun e => (e.target_id, e.target_title)
    queriesRun := ["citedBy", "cites"] }

/-- A per-domain robots policy (web-scraper module): path permission and
crawl delay. -/
structure RobotsPolicy where
  isAllowed : String → Bool
  crawlDelay : Nat

namespace Scraper

/-- Pathname of the Stanford search page checked against robots.txt
(the URL object's pathname excludes the query string). -/
def searchPath : String := "/search"

/-- Search URL fetched by the Stanford adapter of the scraper module. -/
def stanfordUrl (q : String) : String :=
  "https://lawreview.stanford.edu/search?search_api_fulltext=" ++ q

/-- scrapeStanfordLawReview of the web-scraper module (src/unnamed/part_001
lines 194-219): consult the robots policy for the search path first; if
disallowed return empty **without fetching**; otherwise fetch the search URL
and parse it (fetching and HTML extraction folded into the `fetch`
parameter).  The second component is the trace of URLs fetched. -/
def scrapeStanfordLawReview (policy : RobotsPolicy) (fetch : String → List Record)
    (q : String) : List Record × List String :=
  if policy.isAllowed searchPath then (fetch (stanfordUrl q), [stanfordUrl q])
  else ([], [])

end Scraper

/-- Search URL fetched by scrapeAllowedSources of src/index.js. -/
def indexStanfordUrl (q : String) : String :=
  "https://lawreview.stanford.edu/search?q=" ++ q

/-- scrapeAllowedSources of src/index.js (lines 305-339), the scraper the
`/api/search` route actually calls: it fetches the Stanford search page
unconditionally — no robots policy is consulted anywhere in its body,
despite the comment above the fetch — and parses the response (fetching and
HTML extraction folded into `fetch`).  Second component is the trace of URLs
fetched. -/
def scrapeAllowedSources (fetch : String → List Record) (q : String) :
    List Record × List String :=
  (fetch (indexStanfordUrl q), [indexStanfordUrl q])

/-- Cache key of the `/api/search` route (src/index.js line 48): the
template literal hyphen-joining query, filter, page and limit. -/
def cacheKey (query filterStr page limit : String) : String :=
  query ++ "-" ++ filterStr ++ "-" ++ page ++ "-" ++ limit

/-- Upstream data feeding one aggregation request: the store contents, the
three external-API adapter outputs, the scraper fetch behaviour and the
date parser. -/
structure SearchDeps where
  db : List Record
  clResults : List Record
  capResults : List Record
  pmResults : List Record
  webFetch : String → List Record
  parse : String → Option Int

/-- Outcome of one run of the aggregation pipeline body (src/index.js
lines 56-84), with traces of its side effects: whether scraping was
invoked, which rows were handed to the persistence sink, and the cache
write-through.  A comparator TypeError inside the sort aborts the body
before pagination, cache write and persistence (the route catch then
answers 500). -/
structure PipelineRun where
  response : Except Unit RankedResultPage
  scrapeInvoked : Bool
  webFetches : List String
  upserted : List StoredRow
  cacheWrite : Option (String × RankedResultPage)
deriving DecidableEq

/-- Body of the `/api/search` route after a cache miss (src/index.js lines
56-84): store query, external APIs, conditional scraping, dedup, rank,
paginate, cache write-through, persistence sink. -/
def searchPipeline (deps : SearchDeps) (query filterStr : String)
    (page limit : Nat) : PipelineRun :=
  let dbResults := searchInternalDatabase deps.db query page limit
  let apiResults := deps.clResults ++ deps.capResults ++ deps.pmResults
  let invoked := decide (dbResults.length + apiResults.length < limit)
  let scrape := scrapeAllowedSources deps.webFetch query
  let webResults := if invoked then scrape.1 else []
  let allResults := dbResults ++ apiResults ++ webResults
  let uniqueResults := deduplicateResults allResults
  let sorted := sortResultsByRelevance deps.parse uniqueResults query
  { response := sorted.map fun s => paginateResults s page limit
    scrapeInvoked := invoked
    webFetches := if invoked then scrape.2 else []
    upserted :=
      match sorted with
      | .ok _ => storeResultsInDatabase uniqueResults
      | .error _ => []
    cacheWrite :=
      match sorted with
      | .ok s =>
        some (cacheKey query filterStr (toString page) (toString limit),
          paginateResults s page limit)
      | .error _ => none }

/-- Outcome of the whole `/api/search` route including the result cache. -/
structure HandlerRun where
  response : Except Unit RankedResultPage
  cacheAfter : List (String × RankedResultPage)
  pipelineRan : Bool
  scrapeInvoked : Bool
  upserted : List StoredRow

/-- The `/api/search` route (src/index.js lines 43-89): answer from the
result cache when the key hits, otherwise run the pipeline and write the
paginated page through to the cache.  The cache is modelled as an
association list, newest entry first. -/
def searchHandler (deps : SearchDeps) (cache : List (String × RankedResultPage))
    (query filterStr : String) (page limit : Nat) : HandlerRun :=
  let key := cacheKey query filterStr (toString page) (toString limit)
  match List.lookup key cache with
  | some cached =>
    { response := .ok cached, cacheAfter := cache, pipelineRan := false
      scrapeInvoked := false, upserted := [] }
  | none =>
    let run := searchPipeline deps query filterStr page limit
    { response := run.response
      cacheAfter :=
        match run.cacheWrite with
        | some kv => kv :: cache
        | none => cache
      pipelineRan := true
      scrapeInvoked := run.scrapeInvoked
      upserted := run.upserted }

/-- Date parser used in the concrete examples; models ECMA-262
`new Date(s).getTime()` on the strings the examples use: the ISO date
2020-01-01 parses to its epoch milliseconds, every other string occurring
in the examples (e.g. "garbage") is unparseable and yields NaN. -/
def exParse : String → Option Int := fun d =>
  if d = "2020-01-01" then some 1577836800000 else none

/-- A store case record matching the query "miranda" in both title and
content, with no date. -/
def recA : Record :=
  { id := "db-1", title := some "Miranda v. Arizona"
    content := some "miranda rights", court := some "Supreme Court"
    authors := none, date := none, url := none
    source := "Internal Database", inDatabase := false }

/-- An API record matching the query "miranda" nowhere, but carrying a
recent parseable date. -/
def recB : Record :=
  { id := "cl-2", title := some "Something else"
    content := some "nothing relevant", court := none
    authors := none, date := some "2020-01-01", url := none
    source := "CourtListener", inDatabase := false }

/-- A record whose date is present but not parseable as a date. -/
def recBadDate : Record :=
  { id := "cl-3", title := some "Miranda v. Arizona"
    content := some "miranda", court := none
    authors := none, date := some "garbage", url := none
    source := "CourtListener", inDatabase := false }

/-- A store row with a NULL `content` column (the `legal_cases` schema
declares `content` nullable), still matching the query "miranda" by title. -/
def recNoContent : Record :=
  { id := "db-4", title := some "Miranda warnings explained"
    content := none, court := some "Ninth Circuit"
    authors := none, date := none, url := none
    source := "Internal Database", inDatabase := false }

/-- First record of the dedup-key collision pair: title "A-B", court "C". -/
def recP : Record :=
  { id := "p-1", title := some "A-B", content := some ""
    court := some "C", authors := none, date := none, url := none
    source := "S1", inDatabase := false }

/-- Second record of the dedup-key collision pair: title "A", court "B-C" —
a different (title, court-or-source) pair with the same joined key. -/
def recQ : Record :=
  { id := "p-2", title := some "A", content := some ""
    court := some "B-C", authors := none, date := none, url := none
    source := "S2", inDatabase := false }

/-- A store record matching the query "zz" but not the query "zz-x". -/
def recZ : Record :=
  { id := "db-9", title := some "zzz title", content := some "x"
    court := some "C", authors := none, date := none, url := none
    source := "Internal Database", inDatabase := false }

/-- A citation edge: document 2 cites document 1. -/
def exEdge : CitationEdge :=
  { source_id := "2", source_title := "Case Two"
    target_id := "1", target_title := "Case One" }

/-- A scrape fetch returning no parsed records. -/
def emptyFetch : String → List Record := fun _ => []

/-- A robots policy disallowing every path. -/
def denyAllPolicy : RobotsPolicy :=
  { isAllowed := fun _ => false, crawlDelay := 60 }

/-- Upstream dependencies: the store holds `recA` only; the external APIs
and the scraper return nothing. -/
def depsA : SearchDeps :=
  { db := [recA], clResults := [], capResults := [], pmResults := []
    webFetch := emptyFetch, parse := exParse }

/-- Upstream dependencies whose store holds a record with NULL content. -/
def depsBad : SearchDeps :=
  { db := [recA, recNoContent], clResults := [], capResults := []
    pmResults := [], webFetch := emptyFetch, parse := exParse }

/-- Upstream dependencies for the cache-collision scenario: the store holds
`recZ` only. -/
def depsZ : SearchDeps :=
  { db := [recZ], clResults := [], capResults := [], pmResults := []
    webFetch := emptyFetch, parse := exParse }

/-- Bind on a successful `Except` computation reduces to the continuation. -/
@[simp] theorem exceptBind_ok (a : α) (f : α → Except ε β) :
    (Except.ok a : Except ε α) >>= f = f a := rfl

/-- Bind on a failing `Except` computation propagates the error. -/
@[simp] theorem exceptBind_error (e : ε) (f : α → Except ε β) :
    (Except.error e : Except ε α) >>= f = .error e := rfl

/-- Pure value of the `Except` monad is `Except.ok`. -/
@[simp] theorem exceptPure (a : α) : (pure a : Except ε α) = .ok a := rfl

/-- Variant of `exceptBind_ok` for explicit `Except.bind` applications. -/
@[simp] theorem exceptBindExplicit_ok (a : α) (f : α → Except ε β) :
    Except.bind (Except.ok a) f = f a := rfl

/-- Variant of `exceptBind_error` for explicit `Except.bind` applications. -/
@[simp] theorem exceptBindExplicit_error (e : ε) (f : α → Except ε β) :
    Except.bind (Except.error e) f = .error e := rfl

/-- When every comparison that `mergeE` can perform succeeds and agrees with
a pure relation `le`, the throwing merge returns the pure merge. -/
theorem mergeE_ok (cmp : α → α → Except Unit Bool) (le : α → α → Bool) :
    ∀ (xs ys : List α), (∀ a ∈ xs, ∀ b ∈ ys, cmp a b = .ok (le a b)) →
      mergeE cmp xs ys = .ok (List.merge xs ys le)
  | [], ys, _ => by simp [mergeE]
  | x :: xs, [], _ => by simp [mergeE]
  | x :: xs, y :: ys, h => by
    have hxy := h x (by simp) y (by simp)
    have ih₁ := mergeE_ok cmp le xs (y :: ys) fun a ha b hb => h a (by simp [ha]) b hb
    have ih₂ := mergeE_ok cmp le (x :: xs) ys fun a ha b hb => h a ha b (by simp [hb])
    rw [mergeE, List.merge]
    cases hle : le x y <;> rw [hle] at hxy <;> simp [hxy, ih₁, ih₂, hle]
termination_by xs ys => xs.length + ys.length

/-- When every comparison between elements of the list succeeds and agrees
with a pure relation `le`, the throwing merge sort returns `List.mergeSort`. -/
theorem mergeSortE_ok (cmp : α → α → Except Unit Bool) (le : α → α → Bool) :
    ∀ (l : List α), (∀ a ∈ l, ∀ b ∈ l, cmp a b = .ok (le a b)) →
      mergeSortE cmp l = .ok (List.mergeSort l le)
  | [], _ => by simp [mergeSortE]
  | [a], _ => by simp [mergeSortE]
  | a :: b :: xs, h => by
    rw [mergeSortE, List.mergeSort]
    have hfst : ∀ x ∈ (List.splitInTwo ⟨a :: b :: xs, rfl⟩).1.1, x ∈ a :: b :: xs := by
      intro x hx
      rw [List.splitInTwo_fst] at hx
      exact List.mem_of_mem_take hx
    have hsnd : ∀ x ∈ (List.splitInTwo ⟨a :: b :: xs, rfl⟩).2.1, x ∈ a :: b :: xs := by
      intro x hx
      rw [List.splitInTwo_snd] at hx
      exact List.mem_of_mem_drop hx
    have e₁ := mergeSortE_ok cmp le (List.splitInTwo ⟨a :: b :: xs, rfl⟩).1.1
      fun a' ha' b' hb' => h a' (hfst a' ha') b' (hfst b' hb')
    have e₂ := mergeSortE_ok cmp le (List.splitInTwo ⟨a :: b :: xs, rfl⟩).2.1
      fun a' ha' b' hb' => h a' (hsnd a' ha') b' (hsnd b' hb')
    rw [e₁, e₂]
    simp only [exceptBindExplicit_ok]
    exact mergeE_ok cmp le _ _ fun a' ha' b' hb' =>
      h a' (hfst a' (List.mem_mergeSort.mp ha')) b' (hsnd b' (List.mem_mergeSort.mp hb'))
termination_by l => l.length
decreasing_by
  · simp only [List.splitInTwo_fst, List.length_take, List.length_cons]; omega
  · simp only [List.splitInTwo_snd, List.length_drop, List.length_cons]; omega

/-- On a record whose `title` and `content` are present the effectful score
agrees with its pure shadow. -/
theorem totalScoreE_eq_shadow (parse : String → Option Int) (q : String)
    (r : Record) (h : r.title.isSome ∧ r.content.isSome) :
    totalScoreE parse q r = .ok (totalScoreP parse q r) := by
  obtain ⟨ht, hc⟩ := h
  obtain ⟨t, ht⟩ := Option.isSome_iff_exists.mp ht
  obtain ⟨c, hc⟩ := Option.isSome_iff_exists.mp hc
  simp [totalScoreE, totalScoreP, jsGetStr, ht, hc]

/-- On records with present `title`/`content` the effectful comparator
succeeds and agrees with the pure comparator decision. -/
theorem cmpE_eq_leJS (parse : String → Option Int) (q : String) (a b : Record)
    (ha : a.title.isSome ∧ a.content.isSome)
    (hb : b.title.isSome ∧ b.content.isSome) :
    cmpE parse q a b = .ok (leJS parse q a b) := by
  simp [cmpE, leJS, totalScoreE_eq_shadow parse q a ha,
    totalScoreE_eq_shadow parse q b hb]

/-- If moreover both scores are defined (no NaN from an unparseable date),
the comparator decision is the total descending-score relation `leD`. -/
theorem leJS_eq_leD (parse : String → Option Int) (q : String) (a b : Record)
    (ha : (totalScoreP parse q a).isSome) (hb : (totalScoreP parse q b).isSome) :
    leJS parse q a b = leD parse q a b := by
  obtain ⟨sa, ha⟩ := Option.isSome_iff_exists.mp ha
  obtain ⟨sb, hb⟩ := Option.isSome_iff_exists.mp hb
  simp only [leJS, leD, jsCompareVal, ha, hb, scoreD, Option.getD_some]
  by_cases hle : sb ≤ sa
  · simp [hle, sub_nonpos.mpr hle]
  · simp [hle, fun hc => hle (sub_nonpos.mp hc)]

/-- The ranking step on records with present `title`/`content` never throws
and is the stable merge sort under the pure comparator. -/
theorem sortResultsByRelevance_ok (parse : String → Option Int) (q : String)
    (rs : List Record) (hwf : ∀ r ∈ rs, r.title.isSome ∧ r.content.isSome) :
    sortResultsByRelevance parse rs q = .ok (rs.mergeSort (leJS parse q)) :=
  mergeSortE_ok (cmpE parse q) (leJS parse q) rs fun a ha b hb =>
    cmpE_eq_leJS parse q a b (hwf a ha) (hwf b hb)

/-- When additionally every score is defined, the ranking step is the stable
merge sort under the total descending-score relation `leD`. -/
theorem sortResultsByRelevance_ok_leD (parse : String → Option Int) (q : String)
    (rs : List Record)
    (hwf : ∀ r ∈ rs, r.title.isSome ∧ r.content.isSome ∧ (totalScoreP parse q r).isSome) :
    sortResultsByRelevance parse rs q = .ok (rs.mergeSort (leD parse q)) :=
  mergeSortE_ok (cmpE parse q) (leD parse q) rs fun a ha b hb => by
    rw [cmpE_eq_leJS parse q a b ⟨(hwf a ha).1, (hwf a ha).2.1⟩
      ⟨(hwf b hb).1, (hwf b hb).2.1⟩,
      leJS_eq_leD parse q a b (hwf a ha).2.2 (hwf b hb).2.2]

/-- The relation `leD` is transitive. -/
theorem leD_trans (parse : String → Option Int) (q : String) :
    ∀ a b c : Record, leD parse q a b → leD parse q b c → leD parse q a c := by
  intro a b c hab hbc
  simp only [leD, decide_eq_true_eq] at *
  exact le_trans hbc hab

/-- The relation `leD` is total. -/
theorem leD_total (parse : String → Option Int) (q : String) :
    ∀ a b : Record, leD parse q a b || leD parse q b a := by
  intro a b
  simp only [leD, Bool.or_eq_true, decide_eq_true_eq]
  exact le_total _ _

/-- Evaluation of the throwing merge sort on a two-element list: one
comparison decides the order. -/
theorem mergeSortE_pair (cmp : α → α → Except Unit Bool) (a b : α) :
    mergeSortE cmp [a, b] =
      (cmp a b).bind fun c => .ok (if c then [a, b] else [b, a]) := by
  rw [mergeSortE]
  simp only [List.splitInTwo, List.splitAt_eq, List.length_cons, List.length_nil]
  norm_num
  rw [show mergeSortE cmp [a] = .ok [a] from by rw [mergeSortE],
    show mergeSortE cmp [b] = .ok [b] from by rw [mergeSortE]]
  cases hc : cmp a b
  · simp [hc, mergeE]
  · rename_i v
    cases v <;> simp [hc, mergeE]

/-- The throwing merge sort of the empty list. -/
@[simp] theorem mergeSortE_nil (cmp : α → α → Except Unit Bool) :
    mergeSortE cmp ([] : List α) = .ok [] := by
  rw [mergeSortE]

/-- The throwing merge sort of a singleton performs no comparison. -/
@[simp] theorem mergeSortE_single (cmp : α → α → Except Unit Bool) (a : α) :
    mergeSortE cmp [a] = .ok [a] := by
  rw [mergeSortE]

/-- The ceiling division guarantee: `(L + l - 1) / l` blocks of size `l`
cover `L` elements. -/
theorem le_ceilBlocks_mul (L l : Nat) (hl : 0 < l) :
    L ≤ ((L + l - 1) / l) * l := by
  have h1 := Nat.div_add_mod (L + l - 1) l
  have h2 := Nat.mod_lt (L + l - 1) hl
  rw [Nat.mul_comm]
  generalize l * ((L + l - 1) / l) = P at h1 ⊢
  omega

/-- `Math.ceil` of the rational `L / l` agrees with the natural-number
ceiling division `(L + l - 1) / l`. -/
theorem natCeil_div_nat (L l : Nat) (hl : 0 < l) :
    Nat.ceil ((L : ℚ) / (l : ℚ)) = (L + l - 1) / l := by
  have hlq : (0 : ℚ) < (l : ℚ) := by exact_mod_cast hl
  rcases Nat.eq_zero_or_pos L with h0 | hL
  · subst h0
    simp only [Nat.cast_zero, zero_div, Nat.ceil_zero]
    rw [eq_comm, Nat.div_eq_of_lt] ; omega
  · apply le_antisymm
    · rw [Nat.ceil_le, div_le_iff₀ hlq]
      have := le_ceilBlocks_mul L l hl
      exact_mod_cast this
    · have hk : 0 < (L + l - 1) / l := by
        apply Nat.div_pos <;> omega
      obtain ⟨m, hm⟩ : ∃ m, (L + l - 1) / l = m + 1 := ⟨_, (Nat.succ_pred_eq_of_pos hk).symm⟩
      rw [hm]
      rw [Nat.succ_le_iff, Nat.lt_ceil]
      rw [lt_div_iff₀ hlq]
      have hdiv := Nat.div_add_mod (L + l - 1) l
      rw [hm] at hdiv
      have hmod := Nat.mod_lt (L + l - 1) hl
      have : m * l < L := by
        rw [Nat.mul_comm]
        have h3 : l * (m + 1) = l * m + l := by ring
        rw [h3] at hdiv
        generalize l * m = P at hdiv ⊢
        omega
      exact_mod_cast this

/-- Membership characterization of the dedup loop: a record appears in the
output iff it occurs in the input at a position where its key is neither in
the initial `seen` set nor carried by any earlier input record — i.e. the
first occurrence of every key survives and all later ones are dropped. -/
theorem dedupGo_mem (r : Record) : ∀ (seen : List String) (rs : List Record),
    r ∈ dedupGo seen rs ↔
      ∃ l₁ l₂, rs = l₁ ++ r :: l₂ ∧ dedupKey r ∉ seen ∧
        ∀ x ∈ l₁, dedupKey x ≠ dedupKey r := by
  intro seen rs
  induction rs generalizing seen with
  | nil =>
    simp only [dedupGo, List.not_mem_nil, false_iff, not_exists]
    rintro l₁ l₂ ⟨h, -, -⟩
    exact absurd h.symm (List.append_ne_nil_of_right_ne_nil l₁ (by simp))
  | cons r' rs ih =>
    by_cases hk : dedupKey r' ∈ seen
    · rw [dedupGo, if_pos hk, ih]
      constructor
      · rintro ⟨l₁, l₂, rfl, hns, hl⟩
        refine ⟨r' :: l₁, l₂, rfl, hns, ?_⟩
        rintro x hx
        rcases List.mem_cons.mp hx with rfl | hx'
        · exact fun he => hns (he ▸ hk)
        · exact hl x hx'
      · rintro ⟨l₁, l₂, heq, hns, hl⟩
        cases l₁ with
        | nil =>
          simp only [List.nil_append, List.cons.injEq] at heq
          obtain ⟨rfl, rfl⟩ := heq
          exact absurd hk hns
        | cons y l₁ =>
          simp only [List.cons_append, List.cons.injEq] at heq
          obtain ⟨rfl, rfl⟩ := heq
          exact ⟨l₁, l₂, rfl, hns, fun x hx => hl x (List.mem_cons_of_mem _ hx)⟩
    · rw [dedupGo, if_neg hk]
      simp only [List.mem_cons]
      constructor
      · rintro (rfl | hmem)
        · exact ⟨[], rs, rfl, hk, by simp⟩
        · obtain ⟨l₁, l₂, rfl, hns, hl⟩ := (ih _).mp hmem
          simp only [List.mem_cons, not_or] at hns
          refine ⟨r' :: l₁, l₂, rfl, hns.2, ?_⟩
          rintro x hx
          rcases List.mem_cons.mp hx with rfl | hx'
          · exact fun he => hns.1 he.symm
          · exact hl x hx'
      · rintro ⟨l₁, l₂, heq, hns, hl⟩
        cases l₁ with
        | nil =>
          simp only [List.nil_append, List.cons.injEq] at heq
          obtain ⟨rfl, rfl⟩ := heq
          exact Or.inl rfl
        | cons y l₁ =>
          simp only [List.cons_append, List.cons.injEq] at heq
          obtain ⟨rfl, rfl⟩ := heq
          refine Or.inr ((ih _).mpr ⟨l₁, l₂, rfl, ?_, fun x hx => hl x (List.mem_cons_of_mem _ hx)⟩)
          simp only [List.mem_cons, not_or]
          exact ⟨fun he => hl r' (List.mem_cons_self _ _) he.symm, hns⟩

/-- C1 counterexample: a record with text-match component 15 is ranked
*after* a record with text-match component 0, because the recency term
1577836800000 / 10^10 ≈ 157.8 of a 2020 date exceeds the maximal text-match
score — so the sort does not place higher text-match records first, and
recency does not merely break ties. -/
theorem relevance_text_dominance_cex :
    titlePoints "miranda" "Miranda v. Arizona" +
        contentPoints "miranda" "miranda rights" = 15 ∧
    titlePoints "miranda" "Something else" +
        contentPoints "miranda" "nothing relevant" = 0 ∧
    sortResultsByRelevance exParse [recA, recB] "miranda" = .ok [recB, recA] := by
  have hT : jsIncludesCI "Miranda v. Arizona" "miranda" = true := by decide
  have hC : jsIncludesCI "miranda rights" "miranda" = true := by decide
  have hT2 : jsIncludesCI "Something else" "miranda" = false := by decide
  have hC2 : jsIncludesCI "nothing relevant" "miranda" = false := by decide
  refine ⟨?_, ?_, ?_⟩
  · rw [titlePoints, contentPoints, if_pos hT, if_pos hC]; norm_num
  · rw [titlePoints, contentPoints, if_neg (by simp [hT2]), if_neg (by simp [hC2])]
    norm_num
  · have hA : totalScoreE exParse "miranda" recA = .ok (some 15) := by
      simp only [totalScoreE, recA, jsGetStr, recencyMs, exceptBind_ok, exceptPure,
        Option.map_some, titlePoints, contentPoints, hT, hC, if_true]
      norm_num
    have hB : totalScoreE exParse "miranda" recB =
        .ok (some ((1577836800000 : ℚ) / 10000000000)) := by
      simp [totalScoreE, recB, jsGetStr, recencyMs, exParse, titlePoints,
        contentPoints, hT2, hC2]
    have hcmp : cmpE exParse "miranda" recA recB = .ok false := by
      simp only [cmpE, hA, hB, exceptBind_ok, exceptPure, jsCompareVal]
      rw [decide_eq_false]
      norm_num
    rw [sortResultsByRelevance, mergeSortE_pair, hcmp]
    simp

/-- C1 (amended): the ranked output is ordered by descending *total* score —
in which the recency term `dateMs / 10^10` is not dominated by the 10/5
text-match terms — and records with equal total score retain their relative
source order (the sort is stable), provided every record has present
`title`/`content` and a defined (non-NaN) score. -/
theorem relevance_sort_by_total_score_stable (parse : String → Option Int)
    (q : String) (rs : List Record)
    (hwf : ∀ r ∈ rs, r.title.isSome ∧ r.content.isSome ∧ (totalScoreP parse q r).isSome) :
    ∃ out, sortResultsByRelevance parse rs q = .ok out ∧
      out.Pairwise (fun a b => scoreD parse q b ≤ scoreD parse q a) ∧
      ∀ s : ℚ, out.filter (fun r => decide (totalScoreP parse q r = some s)) =
        rs.filter (fun r => decide (totalScoreP parse q r = some s)) := by
  refine ⟨rs.mergeSort (leD parse q), sortResultsByRelevance_ok_leD parse q rs hwf,
    ?_, ?_⟩
  · have hp := List.sorted_mergeSort (leD_trans parse q) (leD_total parse q) rs
    exact hp.imp fun h => by simpa [leD] using h
  · intro s
    set p : Record → Bool := fun r => decide (totalScoreP parse q r = some s) with hp
    have hsub : List.Sublist (rs.filter p) rs := List.filter_sublist rs
    have hpw : (rs.filter p).Pairwise (fun a b => leD parse q a b) := by
      apply List.pairwise_of_forall_mem_list
      intro a ha b hb
      have ha' := List.of_mem_filter ha
      have hb' := List.of_mem_filter hb
      simp only [hp, decide_eq_true_eq] at ha' hb'
      simp [leD, scoreD, ha', hb']
    have hstable :=
      List.sublist_mergeSort (leD_trans parse q) (leD_total parse q) hpw hsub
    have hperm : List.Perm (rs.mergeSort (leD parse q)) rs := List.mergeSort_perm rs _
    have hself : (rs.filter p).filter p = rs.filter p :=
      List.filter_eq_self.mpr fun a ha => List.of_mem_filter ha
    have hf : List.Sublist (rs.filter p) ((rs.mergeSort (leD parse q)).filter p) := by
      have h2 := hstable.filter p
      rwa [hself] at h2
    have hlen : (rs.filter p).length = ((rs.mergeSort (leD parse q)).filter p).length :=
      ((hperm.filter p).length_eq).symm
    exact (hf.eq_of_length hlen).symm

/-- Witness for the amended C1 theorem at a concrete NaN-free input. -/
theorem relevance_sort_by_total_score_stable_witness :
    ∃ out, sortResultsByRelevance exParse [recA, recB] "miranda" = .ok out ∧
      out.Pairwise (fun a b =>
        scoreD exParse "miranda" b ≤ scoreD exParse "miranda" a) ∧
      ∀ s : ℚ,
        out.filter (fun r => decide (totalScoreP exParse "miranda" r = some s)) =
          [recA, recB].filter
            (fun r => decide (totalScoreP exParse "miranda" r = some s)) :=
  relevance_sort_by_total_score_stable exParse "miranda" [recA, recB] (by decide)

/-- C2 counterexample: `recBadDate` carries the present but unparseable date
"garbage"; its recency value is NaN (not zero) and its whole score is NaN,
although its title and content both match the query (the claim would give it
recency 0 and score 15). -/
theorem recency_unparseable_date_cex :
    recBadDate.date = some "garbage" ∧
    exParse "garbage" = none ∧
    jsIncludesCI "Miranda v. Arizona" "miranda" = true ∧
    jsIncludesCI "miranda" "miranda" = true ∧
    recencyMs exParse recBadDate = none ∧
    totalScoreE exParse "miranda" recBadDate = .ok none :=
  ⟨rfl, rfl, by decide, by decide, rfl, rfl⟩

/-- C2 (amended): the relevance score is 10·[query in title] +
5·[query in content] + dateMs/10^10 when the date parses, and the recency
term is exactly zero when the date is absent (or the falsy empty string);
but a present, non-empty, unparseable date yields a NaN score — the record
receives no numeric score at all rather than its text score plus zero — and
among parseable dates a more recent date scores no lower. -/
theorem relevance_score_formula (parse : String → Option Int) (q : String)
    (r : Record) (t c : String) (ht : r.title = some t) (hc : r.content = some c) :
    (r.date = none →
      totalScoreE parse q r = .ok (some (titlePoints q t + contentPoints q c))) ∧
    (∀ d ms, r.date = some d → d ≠ "" → parse d = some ms →
      totalScoreE parse q r =
        .ok (some (titlePoints q t + contentPoints q c + (ms : ℚ) / 10000000000))) ∧
    (∀ d, r.date = some d → d ≠ "" → parse d = none →
      totalScoreE parse q r = .ok none) ∧
    (r.date = some "" →
      totalScoreE parse q r = .ok (some (titlePoints q t + contentPoints q c))) ∧
    (∀ ms ms' : Int, ms ≤ ms' →
      titlePoints q t + contentPoints q c + (ms : ℚ) / 10000000000 ≤
        titlePoints q t + contentPoints q c + (ms' : ℚ) / 10000000000) := by
  refine ⟨?_, ?_, ?_, ?_, ?_⟩
  · intro hd
    simp only [totalScoreE, jsGetStr, ht, hc, recencyMs, hd, exceptBind_ok,
      exceptPure, Option.map_some]
    norm_num
  · intro d ms hd hne hp
    simp [totalScoreE, jsGetStr, ht, hc, recencyMs, hd, hne, hp]
  · intro d hd hne hp
    simp [totalScoreE, jsGetStr, ht, hc, recencyMs, hd, hne, hp]
  · intro hd
    simp only [totalScoreE, jsGetStr, ht, hc, recencyMs, hd, if_pos rfl,
      exceptBind_ok, exceptPure, Option.map_some]
    norm_num
  · intro ms ms' hle
    have : (ms : ℚ) ≤ (ms' : ℚ) := by exact_mod_cast hle
    have hdiv : (ms : ℚ) / 10000000000 ≤ (ms' : ℚ) / 10000000000 := by
      apply div_le_div_of_nonneg_right this ?_ |>.trans_eq rfl
      norm_num
    linarith

/-- Witness for the amended C2 theorem at the record with the unparseable
date: the NaN arm applies. -/
theorem relevance_score_formula_witness :
    totalScoreE exParse "miranda" recBadDate = .ok none :=
  (relevance_score_formula exParse "miranda" recBadDate
    "Miranda v. Arizona" "miranda" rfl rfl).2.2.1 "garbage" rfl (by decide) rfl

/-- C3 counterexample: `recP` (title "A-B", court "C") and `recQ` (title
"A", court "B-C") have *different* (title, court-or-source) pairs, yet the
hyphen-joined dedup key collides ("A-B-C"), so deduplication discards
`recQ` although the claim says only records with the same pair are
duplicates. -/
theorem dedup_key_collision_cex :
    dedupKey recP = dedupKey recQ ∧
    recP.title = some "A-B" ∧ recQ.title = some "A" ∧
    recP.court = some "C" ∧ recQ.court = some "B-C" ∧
    deduplicateResults [recP, recQ] = [recP] := by decide

/-- C3 (amended): over the merged source order (store, then external APIs,
then scraping) a record survives deduplication iff it occurs at a position
where no earlier record carries the same *joined key*
`title ++ "-" ++ (court if truthy, else source)` — the first occurrence of
each key is retained and every later one discarded; distinct (title,
court-or-source) pairs whose joins coincide are identified. -/
theorem dedup_first_occurrence_by_joined_key (store api web : List Record)
    (r : Record) :
    r ∈ deduplicateResults (store ++ api ++ web) ↔
      ∃ l₁ l₂, store ++ api ++ web = l₁ ++ r :: l₂ ∧
        ∀ x ∈ l₁, dedupKey x ≠ dedupKey r := by
  rw [deduplicateResults, dedupGo_mem]
  simp

/-- Witness instantiating the C3 characterization at a concrete merged
list. -/
theorem dedup_first_occurrence_by_joined_key_witness :
    recP ∈ deduplicateResults ([recP] ++ [recQ] ++ []) ↔
      ∃ l₁ l₂, [recP] ++ [recQ] ++ [] = l₁ ++ recP :: l₂ ∧
        ∀ x ∈ l₁, dedupKey x ≠ dedupKey recP :=
  dedup_first_occurrence_by_joined_key [recP] [recQ] [] recP

/-- C4: the scraper-module Stanford adapter returns empty with zero fetches
when the robots policy disallows the search path, but scrapeAllowedSources
of src/index.js — the function the `/api/search` route actually invokes —
fetches the Stanford search URL unconditionally, consulting no robots
policy at all, contradicting its own comment "Always check robots.txt first
and respect it". -/
theorem robots_check_bypassed_in_pipeline :
    Scraper.scrapeStanfordLawReview denyAllPolicy emptyFetch "miranda" = ([], []) ∧
    denyAllPolicy.isAllowed Scraper.searchPath = false ∧
    scrapeAllowedSources emptyFetch "miranda" =
      ([], ["https://lawreview.stanford.edu/search?q=miranda"]) := by decide

/-- C5: scraping is invoked iff the combined store + external-API result
count falls short of the limit; at or above the limit the pipeline performs
no scrape fetch at all. -/
theorem scraping_gated_by_limit (deps : SearchDeps) (query filterStr : String)
    (page limit : Nat) :
    ((searchPipeline deps query filterStr page limit).scrapeInvoked = true ↔
      (searchInternalDatabase deps.db query page limit).length +
        (deps.clResults ++ deps.capResults ++ deps.pmResults).length < limit) ∧
    ((searchPipeline deps query filterStr page limit).webFetches =
      if (searchInternalDatabase deps.db query page limit).length +
          (deps.clResults ++ deps.capResults ++ deps.pmResults).length < limit
        then [indexStanfordUrl query] else []) := by
  constructor
  · simp [searchPipeline]
  · by_cases h :
      (searchInternalDatabase deps.db query page limit).length +
        (deps.clResults ++ deps.capResults ++ deps.pmResults).length < limit <;>
      simp [searchPipeline, scrapeAllowedSources, h]

/-- Witness instantiating the C5 gating equivalence at concrete inputs. -/
theorem scraping_gated_by_limit_witness :
    ((searchPipeline depsA "miranda" "" 1 20).scrapeInvoked = true ↔
      (searchInternalDatabase depsA.db "miranda" 1 20).length +
        (depsA.clResults ++ depsA.capResults ++ depsA.pmResults).length < 20) ∧
    ((searchPipeline depsA "miranda" "" 1 20).webFetches =
      if (searchInternalDatabase depsA.db "miranda" 1 20).length +
          (depsA.clResults ++ depsA.capResults ++ depsA.pmResults).length < 20
        then [indexStanfordUrl "miranda"] else []) :=
  scraping_gated_by_limit depsA "miranda" "" 1 20

/-- C6: pagination returns the slice `[(page-1)*limit, page*limit)`,
reports `total` as the sequence length and `pages` as the ceiling of
`total / limit`, and a page beyond the last yields an empty result list
(with the same correct `total`) rather than an error. -/
theorem pagination_correct (results : List Record) (page limit : Nat)
    (hl : 0 < limit) (hp : 1 ≤ page) :
    (paginateResults results page limit).results =
      (results.drop ((page - 1) * limit)).take limit ∧
    (paginateResults results page limit).pagination.total = results.length ∧
    (paginateResults results page limit).pagination.pages =
      (results.length + limit - 1) / limit ∧
    ((paginateResults results page limit).pagination.pages < page →
      (paginateResults results page limit).results = []) := by
  obtain ⟨p, rfl⟩ : ∃ p, page = p + 1 := ⟨page - 1, by omega⟩
  refine ⟨?_, rfl, ?_, ?_⟩
  · simp [paginateResults, jsSlice, Nat.succ_sub_one, Nat.succ_mul,
      Nat.add_sub_cancel_left]
  · simp [paginateResults, natCeil_div_nat results.length limit hl]
  · intro hbeyond
    simp only [paginateResults, jsSlice] at hbeyond ⊢
    rw [natCeil_div_nat results.length limit hl] at hbeyond
    have hlen : results.length ≤ (p + 1 - 1) * limit := by
      calc results.length ≤ ((results.length + limit - 1) / limit) * limit :=
            le_ceilBlocks_mul results.length limit hl
        _ ≤ (p + 1 - 1) * limit := Nat.mul_le_mul_right _ (by omega)
    rw [List.drop_eq_nil_of_le hlen]
    simp

/-- Witness for C6 at a concrete out-of-range page: one record, limit 2,
page 5. -/
theorem pagination_correct_witness :
    (paginateResults [recA] 5 2).results =
      (([recA] : List Record).drop ((5 - 1) * 2)).take 2 ∧
    (paginateResults [recA] 5 2).pagination.total = ([recA] : List Record).length ∧
    (paginateResults [recA] 5 2).pagination.pages =
      (([recA] : List Record).length + 2 - 1) / 2 ∧
    ((paginateResults [recA] 5 2).pagination.pages < 5 →
      (paginateResults [recA] 5 2).results = []) :=
  pagination_correct [recA] 5 2 (by decide) (by decide)

/-- C7 counterexample: with direction "citing" the citedBy lookup still
runs and its edges are still returned, although the claim says "citing"
runs only the cites lookup. -/
theorem citation_direction_cex :
    getCitationNetwork [exEdge] "1" "citing" 1 =
      { citedBy := [("2", "Case Two")], cites := []
        queriesRun := ["citedBy", "cites"] } := by decide

/-- C7 (amended): getCitationNetwork ignores its `direction` (and `depth`)
arguments entirely — both store lookups always run and both edge lists are
always returned, identically for every direction value. -/
theorem citation_direction_ignored (edges : List CitationEdge) (id : String)
    (d₁ d₂ : String) (k₁ k₂ : Nat) :
    getCitationNetwork edges id d₁ k₁ = getCitationNetwork edges id d₂ k₂ ∧
    (getCitationNetwork edges id d₁ k₁).queriesRun = ["citedBy", "cites"] :=
  ⟨rfl, rfl⟩

/-- C8: the internal store adapter returns `recA` without any already-in-
store flag (`inDatabase` stays false, since nothing ever sets it and the
`legal_cases` schema has no such column), and the persistence sink therefore
re-upserts the store-returned record — contradicting the claim that records
coming from the store are never re-written. -/
theorem store_records_rewritten_by_sink :
    searchInternalDatabase depsA.db "miranda" 1 20 = [recA] ∧
    recA.inDatabase = false ∧
    (searchPipeline depsA "miranda" "" 1 20).upserted =
      [{ id := "db-1", title := some "Miranda v. Arizona"
         content := some "miranda rights", court := some "Supreme Court"
         date := none, url := none, source := "Internal Database" }] := by
  have hdb : searchInternalDatabase [recA] "miranda" 1 20 = [recA] := by decide
  have hdd : deduplicateResults [recA] = [recA] := by decide
  have hsort : sortResultsByRelevance exParse [recA] "miranda" = .ok [recA] := by
    rw [sortResultsByRelevance]; exact mergeSortE_single _ _
  have hstore : storeResultsInDatabase [recA] =
      [{ id := "db-1", title := some "Miranda v. Arizona"
         content := some "miranda rights", court := some "Supreme Court"
         date := none, url := none, source := "Internal Database" }] := by decide
  refine ⟨hdb, rfl, ?_⟩
  simp [searchPipeline, depsA, hdb, hdd, hsort, hstore, scrapeAllowedSources,
    emptyFetch]

/-- C9: the cache key hyphen-joins query, filter, page and limit, and is
not injective — the distinct request tuples ("zz-x", "", 1, 20) and
("zz", "x-", 1, 20) share the key "zz-x--1-20" — so the second request is
served the first request's cached (empty) page from the cache instead of
its own pipeline result, which would contain `recZ`. -/
theorem cache_key_collision_serves_wrong_page :
    cacheKey "zz-x" "" "1" "20" = cacheKey "zz" "x-" "1" "20" ∧
    decide ((("zz-x", "") : String × String) = ("zz", "x-")) = false ∧
    (searchHandler depsZ [] "zz-x" "" 1 20).pipelineRan = true ∧
    ((searchHandler depsZ [] "zz-x" "" 1 20).response.map fun p => p.results) =
      .ok [] ∧
    (searchHandler depsZ (searchHandler depsZ [] "zz-x" "" 1 20).cacheAfter
        "zz" "x-" 1 20).pipelineRan = false ∧
    ((searchHandler depsZ (searchHandler depsZ [] "zz-x" "" 1 20).cacheAfter
        "zz" "x-" 1 20).response.map fun p => p.results) = .ok ([] : List Record) ∧
    ((searchPipeline depsZ "zz" "x-" 1 20).response.map fun p => p.results) =
      .ok [recZ] := by
  have hdb1 : searchInternalDatabase [recZ] "zz-x" 1 20 = [] := by decide
  have hdb2 : searchInternalDatabase [recZ] "zz" 1 20 = [recZ] := by decide
  have hddZ : deduplicateResults [recZ] = [recZ] := by decide
  have hsort0 : sortResultsByRelevance exParse [] "zz-x" = .ok [] := by
    rw [sortResultsByRelevance]; exact mergeSortE_nil _
  have hsortZ : sortResultsByRelevance exParse [recZ] "zz" = .ok [recZ] := by
    rw [sortResultsByRelevance]; exact mergeSortE_single _ _
  have hk : cacheKey "zz" "x-" (toString (1 : Nat)) (toString (20 : Nat)) =
      cacheKey "zz-x" "" (toString (1 : Nat)) (toString (20 : Nat)) := by decide
  refine ⟨by decide, by decide, ?_, ?_, ?_, ?_, ?_⟩
  · simp [searchHandler, List.lookup]
  · simp [searchHandler, searchPipeline, depsZ, hdb1, hsort0, List.lookup,
      scrapeAllowedSources, emptyFetch, deduplicateResults, dedupGo, Except.map,
      paginateResults, jsSlice]
  · simp [searchHandler, searchPipeline, depsZ, hdb1, hsort0, List.lookup,
      scrapeAllowedSources, emptyFetch, deduplicateResults, dedupGo, Except.map,
      hk]
  · simp [searchHandler, searchPipeline, depsZ, hdb1, hsort0, List.lookup,
      scrapeAllowedSources, emptyFetch, deduplicateResults, dedupGo, Except.map,
      hk, paginateResults, jsSlice]
  · simp [searchPipeline, depsZ, hdb2, hddZ, hsortZ, scrapeAllowedSources,
      emptyFetch, Except.map, paginateResults, jsSlice]

/-- C10: the ranking comparator is total exactly on records with present
string `title` and `content` — under that precondition the sort never
throws — but on an input containing a store row with NULL content (which
the schema permits) the comparator throws a TypeError, the sort aborts, and
the whole search request fails (the route answers its catch-all error)
instead of degrading. -/
theorem sort_throws_on_null_content :
    (∀ (parse : String → Option Int) (q : String) (rs : List Record),
        (∀ r ∈ rs, r.title.isSome ∧ r.content.isSome) →
        ∃ out, sortResultsByRelevance parse rs q = .ok out) ∧
    recNoContent.content = none ∧
    sortResultsByRelevance exParse [recA, recNoContent] "miranda" = .error () ∧
    (searchHandler depsBad [] "miranda" "" 1 20).response = .error () := by
  have hcmp : cmpE exParse "miranda" recA recNoContent = .error () := rfl
  have hsort : sortResultsByRelevance exParse [recA, recNoContent] "miranda" =
      .error () := by
    rw [sortResultsByRelevance, mergeSortE_pair, hcmp]; rfl
  have hdb : searchInternalDatabase [recA, recNoContent] "miranda" 1 20 =
      [recA, recNoContent] := by decide
  have hdd : deduplicateResults [recA, recNoContent] = [recA, recNoContent] := by
    decide
  refine ⟨fun parse q rs h => ⟨_, sortResultsByRelevance_ok parse q rs h⟩,
    rfl, hsort, ?_⟩
  simp [searchHandler, searchPipeline, depsBad, hdb, hdd, hsort, List.lookup,
    scrapeAllowedSources, emptyFetch, Except.map]

/-- Witness for the totality direction of C10: on an input whose records all
have present title and content, the sort returns a ranking. -/
theorem sort_throws_on_null_content_witness :
    ∃ out, sortResultsByRelevance exParse [recA] "miranda" = .ok out :=
  sort_throws_on_null_content.1 exParse "miranda" [recA] (by decide)

end LegalApi
